import Mathlib

/-!
Verification of the capture-to-broadcast pipeline of rpi-camera-streamer.

Shallow embedding of `src/rpi_camera_streamer/main.py` (broadcast_thread,
client_sender_thread, the `/stream` disconnect handler), together with the
producer-side queue pushes of `src/rpi_camera_streamer/audio.py` and
`src/rpi_camera_streamer/video.py`.

Modelling conventions:
- Python `str` values are modelled as `List Char`; the byte payloads that the
  code immediately decodes with `.decode("utf-8")` are modelled by their
  decoded character sequence.
- Python queues (`multiprocessing.Queue`, `queue.Queue`) are FIFO lists with a
  capacity: `put_nowait`/`put` append at the end, `get`/`get_nowait` take the
  head, `full()` is `capacity ≤ length`.
- An uncaught Python exception terminating a thread is modelled with
  `Except PyErr`.
- Wall-clock instants (`time.time()`) and float averages are modelled as `ℚ`.
-/

/-- An encoded message, i.e. the Python `str` built by `broadcast_thread`. -/
abbrev Msg := List Char

/-- Decimal rendering of a natural number, as Python `str(int)` produces it.
Fuel-based so that it reduces by `decide`; `natStr` supplies enough fuel. -/
def natStrGo : Nat → Nat → List Char
  | 0, _ => []
  | fuel + 1, n =>
    if n < 10 then [Nat.digitChar n]
    else natStrGo fuel (n / 10) ++ [Nat.digitChar (n % 10)]

/-- Decimal rendering of a natural number (Python `str(int)`). -/
def natStr (n : Nat) : List Char := natStrGo (n + 1) n

/-- Numeric value of a decimal digit character. -/
def digitVal (c : Char) : Nat := c.toNat - 48

/-- Accumulate a decimal numeral left to right. -/
def parseFold (L : List Char) : Nat := L.foldl (fun a c => 10 * a + digitVal c) 0

/-- Parse a nonempty all-digit character sequence as a natural number. -/
def parseNatChars (L : List Char) : Option Nat :=
  if L ≠ [] ∧ L.all Char.isDigit then some (parseFold L) else none

/-- Split a character sequence at its first colon. -/
def splitColon : List Char → Option (List Char × List Char)
  | [] => none
  | c :: cs =>
    if c = ':' then some ([], cs)
    else
      match splitColon cs with
      | some (pre, post) => some (c :: pre, post)
      | none => none

/-- The event-type tag `'video'` used in main.py. -/
def videoTag : List Char := ['v', 'i', 'd', 'e', 'o']

/-- The event-type tag `'audio'` used in main.py. -/
def audioTag : List Char := ['a', 'u', 'd', 'i', 'o']

/-- The message main.py line 90 builds for a video event:
`f'video:{timestamp}:{width}:{height}:{data.decode("utf-8")}'`.
`ts`, `wS`, `hS` are the interpolated renderings of timestamp, width, height. -/
def fmtVideoMsg (ts wS hS data : List Char) : Msg :=
  videoTag ++ ':' :: (ts ++ ':' :: (wS ++ ':' :: (hS ++ ':' :: data)))

/-- The message main.py line 93 builds for an audio event:
`f'audio:{timestamp}:{data.decode("utf-8")}'`. -/
def fmtAudioMsg (ts data : List Char) : Msg :=
  audioTag ++ ':' :: (ts ++ ':' :: data)

/-- Decoder for a video message. The repository ships no client-side decoder;
modelled from the spec round-trip property ("decoding an Encoded Message for
Video recovers the original timestamp, width, height, and payload bytes
exactly"), adapted to the colon-delimited text framing the source emits: read
the tag and the three header fields up to their colons, the remainder is the
payload. -/
def parseVideoMsg (m : Msg) : Option (List Char × Nat × Nat × List Char) :=
  match splitColon m with
  | none => none
  | some (tag, r1) =>
    if tag = videoTag then
      match splitColon r1 with
      | none => none
      | some (ts, r2) =>
        match splitColon r2 with
        | none => none
        | some (wS, r3) =>
          match splitColon r3 with
          | none => none
          | some (hS, payload) =>
            match parseNatChars wS, parseNatChars hS with
            | some w, some h => some (ts, w, h, payload)
            | _, _ => none
    else none

/-- Decoder for an audio message; see `parseVideoMsg` for provenance. -/
def parseAudioMsg (m : Msg) : Option (List Char × List Char) :=
  match splitColon m with
  | none => none
  | some (tag, r1) =>
    if tag = audioTag then
      match splitColon r1 with
      | none => none
      | some (ts, payload) => some (ts, payload)
    else none

/-- One element of a capture-event tuple after its leading tag: either a value
interpolated as text (timestamp rendering, decoded payload) or an integer. -/
inductive PyField where
  | fStr (s : List Char)
  | fNat (n : Nat)
deriving DecidableEq

/-- How an f-string interpolates a field (`{width}` renders the integer in
decimal; strings are inserted verbatim). -/
def interp : PyField → List Char
  | .fStr s => s
  | .fNat n => natStr n

/-- A capture-event tuple as it sits in an ingestion queue: the tag `item[0]`
and the remaining tuple elements. -/
structure Item where
  tag : List Char
  rest : List PyField
deriving DecidableEq

/-- The 6-element video tuple `('video', timestamp, width, height, raw_size,
data)` that `_v4l2_capture` (video.py line 174) produces and that
`broadcast_thread` (main.py line 87) unpacks. -/
def mkVideoItem (ts : List Char) (w h raw : Nat) (data : List Char) : Item :=
  ⟨videoTag, [.fStr ts, .fNat w, .fNat h, .fNat raw, .fStr data]⟩

/-- The 3-element audio tuple `('audio', timestamp, raw_data)` that
`audio_capture_process` (audio.py line 59) produces. -/
def mkAudioItem (ts data : List Char) : Item :=
  ⟨audioTag, [.fStr ts, .fStr data]⟩

/-- The broadcaster's monitoring counters (main.py lines 74-75). -/
structure BState where
  jpegSizeSum : Nat
  jpegCount : Nat
deriving DecidableEq

/-- A per-client output queue; `none` is the termination sentinel that the
disconnect handler enqueues (main.py line 188). -/
abbrev SenderQueue := List (Option Msg)

/-- The client registry: client id to output queue (main.py `clients`). -/
abbrev Clients := List (Nat × SenderQueue)

/-- An uncaught Python exception that terminates the raising thread. -/
inductive PyErr where
  | valueError
  | typeError
deriving DecidableEq

/-- `client_info['queue'].put_nowait(message)` under `except queue.Full`
(main.py lines 99-103, and lines 187-190 for the sentinel): if the queue is
full the put raises `Full`, the handler ignores it, and the queue is left
unchanged — the new element is dropped, nothing is evicted. -/
def clientPush (cap : Nat) (q : SenderQueue) (m : Option Msg) : SenderQueue :=
  if q.length < cap then q ++ [m] else q

/-- The fan-out of main.py lines 97-103: push the message onto every
registered client's queue. -/
def fanout (cap : Nat) (m : Msg) (cs : Clients) : Clients :=
  cs.map (fun p => (p.1, clientPush cap p.2 (some m)))

/-- Processing of one dequeued item, main.py lines 82-103: read `item[0]`,
unpack the tuple by arity (a mismatch raises `ValueError`, which the
surrounding `try` — catching only `queue.Empty` — does not handle), update the
monitoring counters for video, build the message and fan it out. An item whose
tag is neither `'video'` nor `'audio'` leaves `message` empty, so nothing is
pushed and no state changes. Returns the new counters, the new registry, and
the message that was broadcast, if any. -/
def processItem (cap : Nat) (it : Item) (st : BState) (cs : Clients) :
    Except PyErr (BState × Clients × Option Msg) :=
  if it.tag = videoTag then
    match it.rest with
    | [ts, w, h, raw, data] =>
      match raw with
      | .fNat rawN =>
        let st' : BState := ⟨st.jpegSizeSum + rawN, st.jpegCount + 1⟩
        let m := fmtVideoMsg (interp ts) (interp w) (interp h) (interp data)
        .ok (st', fanout cap m cs, some m)
      | .fStr _ => .error .typeError
    | _ => .error .valueError
  else if it.tag = audioTag then
    match it.rest with
    | [ts, data] =>
      let m := fmtAudioMsg (interp ts) (interp data)
      .ok (st, fanout cap m cs, some m)
    | _ => .error .valueError
  else
    .ok (st, cs, none)

/-- The broadcast loop of main.py lines 77-105 with an empty audio ingestion
queue: each `while True` iteration pops one pending video item and processes
it; an uncaught exception terminates the thread, returning the messages
broadcast so far together with the error. -/
def videoRun (cap : Nat) : List Item → BState → Clients →
    List Msg × Except PyErr (BState × Clients)
  | [], st, cs => ([], .ok (st, cs))
  | v :: vs, st, cs =>
    match processItem cap v st cs with
    | .error e => ([], .error e)
    | .ok (st', cs', m) =>
      let r := videoRun cap vs st' cs'
      (m.toList ++ r.1, r.2)

/-- The broadcast loop of main.py lines 77-105 run to exhaustion of both
ingestion queues (no new arrivals): per iteration the `for q in queues` loop
polls the audio queue first (line 70: `queues = [audio_queue, video_queue]`),
popping and processing one pending item from each nonempty queue, audio before
video. An uncaught exception terminates the thread; the first component
collects the messages broadcast before that point. -/
def broadcastRun (cap : Nat) : List Item → List Item → BState → Clients →
    List Msg × Except PyErr (BState × Clients)
  | [], vq, st, cs => videoRun cap vq st cs
  | a :: as, vq, st, cs =>
    match processItem cap a st cs with
    | .error e => ([], .error e)
    | .ok (st1, cs1, ma) =>
      match vq with
      | [] =>
        let r := broadcastRun cap as [] st1 cs1
        (ma.toList ++ r.1, r.2)
      | v :: vs =>
        match processItem cap v st1 cs1 with
        | .error e => (ma.toList, .error e)
        | .ok (st2, cs2, mv) =>
          let r := broadcastRun cap as vs st2 cs2
          (ma.toList ++ mv.toList ++ r.1, r.2)

/-- The producer-side push used by every capture producer:
`if not queue.full(): queue.put(item) else: <log warning>` — audio.py lines
58-61, video.py lines 223-227 (`_rpi_capture`) and 173-175 (`_v4l2_capture`).
When the queue is full the newly produced item is dropped, the queue is left
unchanged, and the producer continues. -/
def producerPush (cap : Nat) (q : List Item) (e : Item) : List Item :=
  if q.length < cap then q ++ [e] else q

/-- A sender draining its queue (main.py lines 44-58): deliver messages in
order until the `None` sentinel (or an empty queue) stops the drain. -/
def senderDrain : SenderQueue → List Msg
  | [] => []
  | none :: _ => []
  | some m :: rest => m :: senderDrain rest

/-- One observation of `client_queue.get(timeout=1)` in the sender loop:
either the one-second timeout fired (`queue.Empty`) or an element was
dequeued (`none` being the sentinel). -/
inductive SenderEvent where
  | timeout
  | item (m : Option Msg)
deriving DecidableEq

/-- How the sender loop ends, or that it is still looping. -/
inductive SenderState where
  | running
  | exitedClean
  | exitedError
deriving DecidableEq

/-- The sender loop of main.py lines 44-58 over a finite observation trace.
`sendOk m` tells whether `ws.send(m)` succeeds (`false` = raises). A timeout
is caught by `except queue.Empty` and the loop continues; the `None` sentinel
breaks the loop cleanly; a failed send is caught by the generic handler and
breaks the loop. Returns the loop status after the trace and the messages
delivered to the transport. -/
def senderRun (sendOk : Msg → Bool) : List SenderEvent → SenderState × List Msg
  | [] => (.running, [])
  | .timeout :: evs => senderRun sendOk evs
  | .item none :: _ => (.exitedClean, [])
  | .item (some m) :: evs =>
    if sendOk m then
      ((senderRun sendOk evs).1, m :: (senderRun sendOk evs).2)
    else (.exitedError, [])

/-- A sender-loop observation that neither is the sentinel nor fails to send. -/
def senderEventOk (sendOk : Msg → Bool) : SenderEvent → Bool
  | .timeout => true
  | .item none => false
  | .item (some m) => sendOk m

/-- Dictionary lookup `clients[client_id]` on the registry model. -/
def lookupClient (cid : Nat) : Clients → Option SenderQueue
  | [] => none
  | (i, q) :: rest => if i = cid then some q else lookupClient cid rest

/-- The disconnect handler of main.py lines 184-191: under the registry lock,
if the client is still registered, try to enqueue the `None` sentinel on its
queue (`put_nowait` under `except queue.Full: pass`, so a full queue skips the
sentinel) and delete the registry entry. Returns the new registry and, when
the client was registered, its queue as the sender will continue to see it. -/
def disconnectClient (cap : Nat) (cid : Nat) (cs : Clients) :
    Clients × Option SenderQueue :=
  match lookupClient cid cs with
  | some q => (cs.filter (fun p => p.1 != cid), some (clientPush cap q none))
  | none => (cs, none)

/-- The periodic diagnostic of main.py lines 108-120. -/
structure Report where
  videoDepth : Nat
  audioDepth : Nat
  avgKB : ℚ
deriving DecidableEq

/-- The reporting step of main.py lines 108-120: when more than 10 seconds of
wall-clock time have passed since the last report, log the two ingestion-queue
depths and `jpeg_size_sum / jpeg_count / 1024` (0 when no frame was counted),
then reset both counters and the report clock. Returns the new counters, the
new `last_log_time`, and the emitted report, if any. -/
def reportStep (now lastLog : ℚ) (st : BState) (videoDepth audioDepth : Nat) :
    BState × ℚ × Option Report :=
  if now - lastLog > 10 then
    (⟨0, 0⟩, now,
     some ⟨videoDepth, audioDepth,
           if st.jpegCount > 0 then
             (st.jpegSizeSum : ℚ) / (st.jpegCount : ℚ) / 1024
           else 0⟩)
  else (st, lastLog, none)

/-- Payload size of a broadcast message: the part after the fixed header
fields (the JPEG text for video, the PCM text for audio). -/
def msgPayloadLen (m : Msg) : Nat :=
  match parseVideoMsg m with
  | some (_, _, _, d) => d.length
  | none =>
    match parseAudioMsg m with
    | some (_, d) => d.length
    | none => 0

/-- Modelled from the spec: "the mean payload size of the messages broadcast
since the previous report" — the arithmetic mean of the payload sizes of all
broadcast messages, audio and video alike. No such quantity is computed in
src/; it is the reference the diagnostic of main.py is compared against. -/
def specMeanPayload (msgs : List Msg) : ℚ :=
  if msgs.length = 0 then 0
  else ((msgs.map msgPayloadLen).sum : ℚ) / (msgs.length : ℚ)

/-- Modelled from the spec: the binary wire layout of §4.1 for a Video event —
a 1-byte tag `'V'` (byte 86), 8 bytes of little-endian IEEE-754 timestamp
(abstracted as an arbitrary 8-byte block, which only weakens the predicate),
little-endian 2-byte width and height, then the JPEG payload bytes. No such
encoder exists in src/. -/
def specVideoWire (w h : Nat) (payload : List Nat) (msg : List Nat) : Prop :=
  ∃ ts8 : List Nat, ts8.length = 8 ∧
    msg = 86 :: ts8 ++ [w % 256, w / 256 % 256, h % 256, h / 256 % 256] ++ payload

/-- The data of one well-formed video capture event as `_v4l2_capture`
produces it: rendered timestamp, width, height, raw JPEG size, decoded
payload text. -/
structure VideoEv where
  ts : List Char
  w : Nat
  h : Nat
  raw : Nat
  data : List Char
deriving DecidableEq

/-- The ingestion-queue tuple of a well-formed video event. -/
def mkVideoEv (e : VideoEv) : Item := mkVideoItem e.ts e.w e.h e.raw e.data

/-- The message `broadcast_thread` builds for a well-formed video event. -/
def msgOfVideoEv (e : VideoEv) : Msg :=
  fmtVideoMsg e.ts (natStr e.w) (natStr e.h) e.data

/-! Helper lemmas. -/

theorem digitChar_isDigit : ∀ d, d < 10 → (Nat.digitChar d).isDigit = true := by
  decide

theorem digitVal_digitChar : ∀ d, d < 10 → digitVal (Nat.digitChar d) = d := by
  decide

theorem isDigit_ne_colon (c : Char) (h : c.isDigit = true) : c ≠ ':' := by
  intro hc
  subst hc
  exact absurd h (by decide)

theorem natStrGo_all_digits : ∀ fuel n, (natStrGo fuel n).all Char.isDigit = true := by
  intro fuel
  induction fuel with
  | zero => intro n; rfl
  | succ fuel ih =>
    intro n
    unfold natStrGo
    by_cases h10 : n < 10
    · simp [h10, digitChar_isDigit n h10]
    · simp only [h10, if_false, List.all_append, ih (n / 10), Bool.true_and]
      simp [digitChar_isDigit (n % 10) (Nat.mod_lt n (by norm_num))]

theorem natStrGo_ne_nil : ∀ fuel n, n < fuel → natStrGo fuel n ≠ [] := by
  intro fuel
  induction fuel with
  | zero => intro n h; omega
  | succ fuel ih =>
    intro n _
    unfold natStrGo
    by_cases h10 : n < 10
    · simp [h10]
    · simp [h10]

theorem parseFold_append_digit (xs : List Char) (c : Char) :
    parseFold (xs ++ [c]) = 10 * parseFold xs + digitVal c := by
  simp [parseFold, List.foldl_append]

theorem natStrGo_parse : ∀ fuel n, n < fuel → parseFold (natStrGo fuel n) = n := by
  intro fuel
  induction fuel with
  | zero => intro n h; omega
  | succ fuel ih =>
    intro n h
    unfold natStrGo
    by_cases h10 : n < 10
    · simp [h10, parseFold, digitVal_digitChar n h10]
    · rw [if_neg h10, parseFold_append_digit,
        ih (n / 10) (by omega), digitVal_digitChar (n % 10) (Nat.mod_lt n (by norm_num))]
      omega

theorem parseNatChars_natStr (n : Nat) : parseNatChars (natStr n) = some n := by
  unfold parseNatChars natStr
  rw [if_pos ⟨natStrGo_ne_nil (n + 1) n (Nat.lt_succ_self n), natStrGo_all_digits (n + 1) n⟩,
    natStrGo_parse (n + 1) n (Nat.lt_succ_self n)]

theorem natStr_no_colon (n : Nat) : ':' ∉ natStr n := by
  intro hmem
  have hall := natStrGo_all_digits (n + 1) n
  rw [List.all_eq_true] at hall
  exact absurd rfl (isDigit_ne_colon ':' (hall ':' hmem))

theorem splitColon_append (pre rest : List Char) (h : ':' ∉ pre) :
    splitColon (pre ++ ':' :: rest) = some (pre, rest) := by
  induction pre with
  | nil => simp [splitColon]
  | cons c pre ih =>
    have hc : ¬ (c = ':') := fun hc => h (by simp [hc])
    have hpre : ':' ∉ pre := fun hm => h (List.mem_cons_of_mem c hm)
    simp [List.cons_append, splitColon, hc, ih hpre]

theorem parseVideoMsg_fmt (ts : List Char) (w h : Nat) (data : List Char)
    (hts : ':' ∉ ts) :
    parseVideoMsg (fmtVideoMsg ts (natStr w) (natStr h) data) = some (ts, w, h, data) := by
  simp [parseVideoMsg, fmtVideoMsg, splitColon_append, hts, natStr_no_colon,
    parseNatChars_natStr, show (':' : Char) ∉ videoTag by decide]

theorem parseAudioMsg_fmt (ts data : List Char) (hts : ':' ∉ ts) :
    parseAudioMsg (fmtAudioMsg ts data) = some (ts, data) := by
  simp [parseAudioMsg, fmtAudioMsg, splitColon_append, hts,
    show (':' : Char) ∉ audioTag by decide]

theorem senderDrain_map_some (msgs : List Msg) :
    senderDrain (msgs.map (fun m => some m)) = msgs := by
  induction msgs with
  | nil => rfl
  | cons m msgs ih => simp [senderDrain, ih]

theorem processItem_video (cap : Nat) (e : VideoEv) (st : BState) (cs : Clients) :
    processItem cap (mkVideoEv e) st cs =
      .ok (⟨st.jpegSizeSum + e.raw, st.jpegCount + 1⟩,
           fanout cap (msgOfVideoEv e) cs, some (msgOfVideoEv e)) := by
  rfl

theorem processItem_audio (cap : Nat) (ts data : List Char) (st : BState) (cs : Clients) :
    processItem cap (mkAudioItem ts data) st cs =
      .ok (st, fanout cap (fmtAudioMsg ts data) cs, some (fmtAudioMsg ts data)) := by
  rfl

theorem foldl_clientPush (cap : Nat) (msgs : List Msg) :
    ∀ q : List Msg, q.length ≤ cap →
      List.foldl (fun q m => clientPush cap q (some m)) (q.map (fun m => some m)) msgs =
        (q ++ msgs.take (cap - q.length)).map (fun m => some m) := by
  induction msgs with
  | nil => intro q _; simp
  | cons m msgs ih =>
    intro q hq
    by_cases hlt : q.length < cap
    · have hstep : clientPush cap (q.map (fun m => some m)) (some m) =
          ((q ++ [m]).map (fun m => some m)) := by
        simp [clientPush, hlt]
      rw [List.foldl_cons, hstep, ih (q ++ [m]) (by simp; omega)]
      have harith : cap - q.length = (cap - (q ++ [m]).length) + 1 := by
        simp
        omega
      rw [harith, List.take_succ_cons, List.append_assoc]
      simp
    · have hq' : q.length = cap := by omega
      have hstep : clientPush cap (q.map (fun m => some m)) (some m) =
          q.map (fun m => some m) := by
        simp [clientPush, hlt]
      rw [List.foldl_cons, hstep, ih q hq]
      simp [hq']

theorem lookupClient_filter_self (cid : Nat) (cs : Clients) :
    lookupClient cid (cs.filter (fun p => p.1 != cid)) = none := by
  induction cs with
  | nil => rfl
  | cons p rest ih =>
    by_cases hic : p.1 = cid
    · simp [List.filter_cons, hic, ih]
    · simp [List.filter_cons, hic, lookupClient, ih]

theorem videoRun_single_client (cap cid : Nat) (evs : List VideoEv) :
    ∀ (st : BState) (q : List Msg), q.length + evs.length ≤ cap →
      videoRun cap (evs.map mkVideoEv) st [(cid, q.map (fun m => some m))] =
        (evs.map msgOfVideoEv,
         .ok (⟨st.jpegSizeSum + (evs.map VideoEv.raw).sum, st.jpegCount + evs.length⟩,
              [(cid, (q ++ evs.map msgOfVideoEv).map (fun m => some m))])) := by
  induction evs with
  | nil =>
    intro st q _
    simp [videoRun]
  | cons e evs ih =>
    intro st q hlen
    have hq : q.length < cap := by simp at hlen; omega
    have hfan : fanout cap (msgOfVideoEv e) [(cid, q.map (fun m => some m))] =
        [(cid, (q ++ [msgOfVideoEv e]).map (fun m => some m))] := by
      simp [fanout, clientPush, hq]
    simp only [List.map_cons, videoRun, processItem_video, hfan]
    rw [ih ⟨st.jpegSizeSum + e.raw, st.jpegCount + 1⟩ (q ++ [msgOfVideoEv e])
      (by simp at hlen ⊢; omega)]
    simp only [Option.toList_some, List.singleton_append, List.map_cons, List.sum_cons]
    have h1 : st.jpegSizeSum + e.raw + (List.map VideoEv.raw evs).sum =
        st.jpegSizeSum + (e.raw + (List.map VideoEv.raw evs).sum) := by omega
    have h2 : st.jpegCount + 1 + evs.length = st.jpegCount + (e :: evs).length := by
      simp
      omega
    have h3 : q ++ [msgOfVideoEv e] ++ List.map msgOfVideoEv evs =
        q ++ msgOfVideoEv e :: List.map msgOfVideoEv evs := by
      simp
    rw [h1, h2, h3]

/-! Claim theorems. -/

/-- C1 counterexample: the message `broadcast_thread` builds for a concrete
video event is not in the binary wire format the spec fixes — its first byte
is `'v'` (118), not the tag byte `'V'` (86); the code emits a colon-delimited
text message instead. -/
theorem c1_counterexample :
    ¬ specVideoWire 640 480 (['a', 'b', 'c'].map Char.toNat)
      ((fmtVideoMsg ['1', '.', '5'] (natStr 640) (natStr 480) ['a', 'b', 'c']).map
        Char.toNat) := by
  intro hw
  obtain ⟨ts8, _, heq⟩ := hw
  have h1 : ((fmtVideoMsg ['1', '.', '5'] (natStr 640) (natStr 480)
      ['a', 'b', 'c']).map Char.toNat).head? = some 118 := by decide
  rw [heq] at h1
  simp at h1

/-- C1 amended: for every capture event the encoder produces a colon-delimited
text message — `'video:' ++ timestamp ++ ':' ++ width ++ ':' ++ height ++ ':'
++ payload` for video and `'audio:' ++ timestamp ++ ':' ++ payload` for audio,
with the integers rendered in decimal and the payload inserted as its UTF-8
decoding — and decoding such a message by reading the header fields up to
their colons recovers the timestamp rendering, width, height and payload
exactly (given that the timestamp rendering contains no colon, which Python's
`str(float)` guarantees). -/
theorem c1_text_roundtrip (cap : Nat) (st : BState) (cs : Clients)
    (ts : List Char) (w h raw : Nat) (data tsa da : List Char)
    (hts : ':' ∉ ts) (hta : ':' ∉ tsa) :
    processItem cap (mkVideoItem ts w h raw data) st cs =
      .ok (⟨st.jpegSizeSum + raw, st.jpegCount + 1⟩,
           fanout cap (fmtVideoMsg ts (natStr w) (natStr h) data) cs,
           some (fmtVideoMsg ts (natStr w) (natStr h) data)) ∧
    processItem cap (mkAudioItem tsa da) st cs =
      .ok (st, fanout cap (fmtAudioMsg tsa da) cs, some (fmtAudioMsg tsa da)) ∧
    parseVideoMsg (fmtVideoMsg ts (natStr w) (natStr h) data) = some (ts, w, h, data) ∧
    parseAudioMsg (fmtAudioMsg tsa da) = some (tsa, da) :=
  ⟨rfl, rfl, parseVideoMsg_fmt ts w h data hts, parseAudioMsg_fmt tsa da hta⟩

/-- C1 witness: the round trip at a concrete video event. -/
theorem c1_text_roundtrip_witness :
    (':' ∉ (['1', '.', '5'] : List Char)) ∧ (':' ∉ (['2'] : List Char)) ∧
    parseVideoMsg (fmtVideoMsg ['1', '.', '5'] (natStr 640) (natStr 480) ['a', 'b']) =
      some (['1', '.', '5'], 640, 480, ['a', 'b']) :=
  ⟨by decide, by decide,
   (c1_text_roundtrip 4 ⟨0, 0⟩ [] ['1', '.', '5'] 640 480 9 ['a', 'b'] ['2'] ['p']
     (by decide) (by decide)).2.2.1⟩

/-- C2 counterexample: with an output-queue capacity of N = 2, enqueuing the
three messages 1, 2, 3 for an unreading client and then draining yields
messages {1, 2} — the push onto the full queue dropped the new message 3 and
evicted nothing — not the {2, 3} the claim states. -/
theorem c2_counterexample :
    senderDrain (List.foldl (fun q m => clientPush 2 q (some m)) []
        [['1'], ['2'], ['3']]) = [['1'], ['2']] ∧
    senderDrain (List.foldl (fun q m => clientPush 2 q (some m)) []
        [['1'], ['2'], ['3']]) ≠ [['2'], ['3']] :=
  ⟨by decide, by decide⟩

/-- C2 amended: when the Broadcaster pushes a message onto a full per-client
Output Queue of capacity N, the push is dropped and the queue is left
unchanged (drop-newest, no eviction, no blocking): enqueuing any sequence of
messages for a client whose Sender never drains, then draining, yields the
first N messages — for N+1 enqueues, messages 1 through N, with message N+1
dropped. -/
theorem c2_drop_newest (cap : Nat) (msgs : List Msg) :
    senderDrain (List.foldl (fun q m => clientPush cap q (some m)) [] msgs) =
      msgs.take cap := by
  have h := foldl_clientPush cap msgs [] (by simp)
  simp only [List.map_nil, List.nil_append, List.length_nil, Nat.sub_zero] at h
  rw [h, senderDrain_map_some]

/-- C3: evaluating the broadcaster at the tuple `_rpi_capture` actually
produces — `('video', timestamp, width, height, frame_data)`, five elements
with no `raw_size` (video.py lines 223-225) — makes the 6-element unpacking at
main.py line 87 raise `ValueError`; the `try` around it catches only
`queue.Empty`, so the exception terminates the broadcast thread: no message is
broadcast and the following well-formed event is never processed, contradicting
the required per-event failure isolation. -/
theorem c3_broadcaster_crash :
    broadcastRun 100 []
        [⟨videoTag, [.fStr ['1'], .fNat 640, .fNat 480, .fStr ['x']]⟩,
         mkVideoItem ['2'] 640 480 9 ['y']]
        ⟨0, 0⟩ [(0, [])] = ([], .error .valueError) := by
  rfl

/-- C4: in a broadcaster iteration where both ingestion queues hold a pending
event, the audio event is dequeued, encoded and fanned out to every client's
queue before the video event (`queues = [audio_queue, video_queue]`, main.py
line 70): the broadcast trace begins with the audio message followed by the
video message, and the video fan-out applies to the registry state already
updated by the audio fan-out. -/
theorem c4_audio_first (cap : Nat) (tsa da tsv dv : List Char) (w h raw : Nat)
    (as vs : List Item) (st : BState) (cs : Clients) :
    broadcastRun cap (mkAudioItem tsa da :: as) (mkVideoItem tsv w h raw dv :: vs) st cs =
      (fmtAudioMsg tsa da :: fmtVideoMsg tsv (natStr w) (natStr h) dv ::
         (broadcastRun cap as vs ⟨st.jpegSizeSum + raw, st.jpegCount + 1⟩
            (fanout cap (fmtVideoMsg tsv (natStr w) (natStr h) dv)
              (fanout cap (fmtAudioMsg tsa da) cs))).1,
       (broadcastRun cap as vs ⟨st.jpegSizeSum + raw, st.jpegCount + 1⟩
          (fanout cap (fmtVideoMsg tsv (natStr w) (natStr h) dv)
            (fanout cap (fmtAudioMsg tsa da) cs))).2) := by
  rfl

/-- C5: messages reach a single client in exactly the order the Broadcaster
enqueued them, which is the order the events entered the video ingestion
queue: running the broadcaster on a video-only queue leaves the client's
output queue holding the messages of the fed events in feed order, and the
Sender drains them in that same order — in particular feeding V(t=1), V(t=2),
V(t=3) delivers exactly those three messages in that order. -/
theorem c5_fifo_order (cap cid : Nat) (evs : List VideoEv)
    (hcap : evs.length ≤ cap) :
    broadcastRun cap [] (evs.map mkVideoEv) ⟨0, 0⟩ [(cid, [])] =
      (evs.map msgOfVideoEv,
       .ok (⟨(evs.map VideoEv.raw).sum, evs.length⟩,
            [(cid, (evs.map msgOfVideoEv).map (fun m => some m))])) ∧
    senderDrain ((evs.map msgOfVideoEv).map (fun m => some m)) =
      evs.map msgOfVideoEv := by
  constructor
  · have h := videoRun_single_client cap cid evs ⟨0, 0⟩ [] (by simpa using hcap)
    simpa [broadcastRun] using h
  · exact senderDrain_map_some _

/-- C5 witness: three video events delivered in feed order. -/
theorem c5_fifo_order_witness :
    ([⟨['1'], 640, 480, 5, ['a']⟩, ⟨['2'], 640, 480, 6, ['b']⟩,
      ⟨['3'], 640, 480, 7, ['c']⟩] : List VideoEv).length ≤ 100 ∧
    (broadcastRun 100 []
        (([⟨['1'], 640, 480, 5, ['a']⟩, ⟨['2'], 640, 480, 6, ['b']⟩,
           ⟨['3'], 640, 480, 7, ['c']⟩] : List VideoEv).map mkVideoEv)
        ⟨0, 0⟩ [(0, [])] =
      (([⟨['1'], 640, 480, 5, ['a']⟩, ⟨['2'], 640, 480, 6, ['b']⟩,
         ⟨['3'], 640, 480, 7, ['c']⟩] : List VideoEv).map msgOfVideoEv,
       .ok (⟨(([⟨['1'], 640, 480, 5, ['a']⟩, ⟨['2'], 640, 480, 6, ['b']⟩,
               ⟨['3'], 640, 480, 7, ['c']⟩] : List VideoEv).map VideoEv.raw).sum,
             ([⟨['1'], 640, 480, 5, ['a']⟩, ⟨['2'], 640, 480, 6, ['b']⟩,
              ⟨['3'], 640, 480, 7, ['c']⟩] : List VideoEv).length⟩,
            [(0, (([⟨['1'], 640, 480, 5, ['a']⟩, ⟨['2'], 640, 480, 6, ['b']⟩,
                   ⟨['3'], 640, 480, 7, ['c']⟩] : List VideoEv).map msgOfVideoEv).map
                 (fun m => some m))])) ∧
     senderDrain ((([⟨['1'], 640, 480, 5, ['a']⟩, ⟨['2'], 640, 480, 6, ['b']⟩,
        ⟨['3'], 640, 480, 7, ['c']⟩] : List VideoEv).map msgOfVideoEv).map
          (fun m => some m)) =
       ([⟨['1'], 640, 480, 5, ['a']⟩, ⟨['2'], 640, 480, 6, ['b']⟩,
         ⟨['3'], 640, 480, 7, ['c']⟩] : List VideoEv).map msgOfVideoEv) :=
  ⟨by decide,
   c5_fifo_order 100 0
     [⟨['1'], 640, 480, 5, ['a']⟩, ⟨['2'], 640, 480, 6, ['b']⟩,
      ⟨['3'], 640, 480, 7, ['c']⟩] (by decide)⟩

/-- C6: every capture producer pushes only when its ingestion queue is not
full (`if not queue.full(): queue.put(...)`): a push onto a full queue drops
the newly produced event, leaves the queue contents unchanged — no older
event is evicted — and returns normally (never blocks, never raises). -/
theorem c6_producer_drop_newest (cap : Nat) (q : List Item) (e : Item)
    (hfull : cap ≤ q.length) :
    producerPush cap q e = q := by
  unfold producerPush
  rw [if_neg (by omega)]

/-- C6 witness: a full audio ingestion queue is unchanged by a push. -/
theorem c6_producer_drop_newest_witness :
    1 ≤ ([mkAudioItem ['1'] ['p']] : List Item).length ∧
    producerPush 1 [mkAudioItem ['1'] ['p']] (mkAudioItem ['2'] ['q']) =
      [mkAudioItem ['1'] ['p']] :=
  ⟨by decide,
   c6_producer_drop_newest 1 [mkAudioItem ['1'] ['p']] (mkAudioItem ['2'] ['q'])
     (by decide)⟩

/-- C7: the sender loop never exits because its queue is merely empty: over
any observation trace containing no `None` sentinel and no failing
`ws.send`, the loop is still running — timeouts (`queue.Empty`) always
continue the loop; only the sentinel or a transport failure terminate it. -/
theorem c7_sender_no_empty_exit (sendOk : Msg → Bool) (evs : List SenderEvent)
    (h : ∀ e ∈ evs, senderEventOk sendOk e = true) :
    (senderRun sendOk evs).1 = .running := by
  induction evs with
  | nil => rfl
  | cons e evs ih =>
    have he := h e (List.mem_cons_self e evs)
    have htl : ∀ x ∈ evs, senderEventOk sendOk x = true :=
      fun x hx => h x (List.mem_cons_of_mem e hx)
    cases e with
    | timeout => simpa [senderRun] using ih htl
    | item m =>
      cases m with
      | none => simp [senderEventOk] at he
      | some m =>
        have hm : sendOk m = true := he
        simp [senderRun, hm, ih htl]

/-- C7 witness: a trace of timeouts around one successful send leaves the
sender loop running. -/
theorem c7_sender_no_empty_exit_witness :
    (∀ e ∈ ([.timeout, .item (some ['a']), .timeout] : List SenderEvent),
      senderEventOk (fun _ => true) e = true) ∧
    (senderRun (fun _ => true)
      [.timeout, .item (some ['a']), .timeout]).1 = .running :=
  ⟨by decide,
   c7_sender_no_empty_exit (fun _ => true)
     [.timeout, .item (some ['a']), .timeout] (by decide)⟩

/-- C8 counterexample: in an interval in which one audio message (payload 4
characters) and one video message (payload 2 characters, `raw_size` 1000) were
broadcast, the diagnostic's counters hold (1000, 1) — only the video frame was
counted — so the report shows 1000/1024 KB, while the mean payload size of the
two messages broadcast is 3 bytes, i.e. 3/1024 KB: the reported figure is not
the mean payload size of the messages broadcast since the previous report. -/
theorem c8_counterexample :
    (broadcastRun 100 [mkAudioItem ['1'] ['p', 'q', 'r', 's']]
        [mkVideoItem ['2'] 640 480 1000 ['A', 'B']] ⟨0, 0⟩ [(0, [])]).1 =
      [fmtAudioMsg ['1'] ['p', 'q', 'r', 's'],
       fmtVideoMsg ['2'] (natStr 640) (natStr 480) ['A', 'B']] ∧
    (broadcastRun 100 [mkAudioItem ['1'] ['p', 'q', 'r', 's']]
        [mkVideoItem ['2'] 640 480 1000 ['A', 'B']] ⟨0, 0⟩ [(0, [])]).2 =
      .ok (⟨1000, 1⟩,
           [(0, [some (fmtAudioMsg ['1'] ['p', 'q', 'r', 's']),
                 some (fmtVideoMsg ['2'] (natStr 640) (natStr 480) ['A', 'B'])])]) ∧
    (reportStep 11 0 ⟨1000, 1⟩ 3 7).2.2 = some ⟨3, 7, 1000 / 1024⟩ ∧
    specMeanPayload
      [fmtAudioMsg ['1'] ['p', 'q', 'r', 's'],
       fmtVideoMsg ['2'] (natStr 640) (natStr 480) ['A', 'B']] = 3 ∧
    (1000 : ℚ) / 1024 ≠ 3 / 1024 := by
  refine ⟨by decide, by rfl, ?_, ?_, by norm_num⟩
  · norm_num [reportStep]
  · have hlens : List.map msgPayloadLen
        [fmtAudioMsg ['1'] ['p', 'q', 'r', 's'],
         fmtVideoMsg ['2'] (natStr 640) (natStr 480) ['A', 'B']] = [4, 2] := by decide
    rw [specMeanPayload, hlens]
    norm_num

/-- C8 amended: each time the broadcaster observes more than 10 seconds of
wall-clock time since the last report it emits one diagnostic carrying the
current depths of both ingestion queues and the mean raw JPEG size (in KB) of
the video frames counted since the previous report — audio messages are not
counted, and the tracked size is the frame's `raw_size`, not the message
payload — then resets the byte-sum and frame-count counters to zero and
restarts the interval clock; processing an audio event leaves the counters
untouched while a video event adds its `raw_size` to the byte sum and one to
the frame count. -/
theorem c8_report_reset (now lastLog : ℚ) (st : BState) (vd ad : Nat)
    (cap : Nat) (cs : Clients) (ts data tsv dv : List Char) (w h raw : Nat)
    (hgt : now - lastLog > 10) :
    reportStep now lastLog st vd ad =
      (⟨0, 0⟩, now,
       some ⟨vd, ad,
             if st.jpegCount > 0 then
               (st.jpegSizeSum : ℚ) / (st.jpegCount : ℚ) / 1024
             else 0⟩) ∧
    processItem cap (mkAudioItem ts data) st cs =
      .ok (st, fanout cap (fmtAudioMsg ts data) cs, some (fmtAudioMsg ts data)) ∧
    processItem cap (mkVideoItem tsv w h raw dv) st cs =
      .ok (⟨st.jpegSizeSum + raw, st.jpegCount + 1⟩,
           fanout cap (fmtVideoMsg tsv (natStr w) (natStr h) dv) cs,
           some (fmtVideoMsg tsv (natStr w) (natStr h) dv)) := by
  refine ⟨?_, rfl, rfl⟩
  simp [reportStep, hgt]

/-- C8 witness: a report emitted at t = 11 with counters (2048, 2). -/
theorem c8_report_reset_witness :
    ((11 : ℚ) - 0 > 10) ∧
    reportStep 11 0 ⟨2048, 2⟩ 5 6 =
      (⟨0, 0⟩, 11,
       some ⟨5, 6,
             if (2 : Nat) > 0 then ((2048 : Nat) : ℚ) / ((2 : Nat) : ℚ) / 1024
             else 0⟩) :=
  ⟨by norm_num,
   (c8_report_reset 11 0 ⟨2048, 2⟩ 5 6 1 [] ['1'] ['p'] ['2'] ['d'] 9 9 9
     (by norm_num)).1⟩

/-- C9: an item dequeued with a tag that is neither `'video'` nor `'audio'`
is silently skipped — `message` stays empty so nothing is enqueued on any
client's queue, no exception is raised, and the counters and the registry are
unchanged. -/
theorem c9_unknown_tag_skipped (cap : Nat) (tag : List Char)
    (fields : List PyField) (st : BState) (cs : Clients)
    (hv : tag ≠ videoTag) (ha : tag ≠ audioTag) :
    processItem cap ⟨tag, fields⟩ st cs = .ok (st, cs, none) := by
  simp [processItem, hv, ha]

/-- C9 witness: a `'x'`-tagged item leaves everything unchanged. -/
theorem c9_unknown_tag_skipped_witness :
    ((['x'] : List Char) ≠ videoTag) ∧ ((['x'] : List Char) ≠ audioTag) ∧
    processItem 5 ⟨['x'], [.fNat 3]⟩ ⟨1, 2⟩ [(0, [])] =
      .ok (⟨1, 2⟩, [(0, [])], none) :=
  ⟨by decide, by decide,
   c9_unknown_tag_skipped 5 ['x'] [.fNat 3] ⟨1, 2⟩ [(0, [])]
     (by decide) (by decide)⟩

/-- C10: the disconnect handler always removes a registered client from the
registry, and enqueues the `None` termination sentinel on its output queue
only when that queue has free space — the `put_nowait` of the sentinel is
wrapped in `except queue.Full: pass`, so on a full queue the sentinel is
silently skipped and the queue is unchanged, leaving the sender unsignalled
through the queue. -/
theorem c10_disconnect (cap cid : Nat) (cs : Clients) (q : SenderQueue)
    (hreg : lookupClient cid cs = some q) :
    lookupClient cid (disconnectClient cap cid cs).1 = none ∧
    (disconnectClient cap cid cs).2 = some (clientPush cap q none) ∧
    (cap ≤ q.length → clientPush cap q none = q) ∧
    (q.length < cap → clientPush cap q none = q ++ [none]) := by
  refine ⟨?_, ?_, ?_, ?_⟩
  · simp [disconnectClient, hreg, lookupClient_filter_self]
  · simp [disconnectClient, hreg]
  · intro hfull
    simp [clientPush, show ¬ q.length < cap by omega]
  · intro hlt
    simp [clientPush, hlt]

/-- C10 witness: disconnecting a registered client with a non-full queue. -/
theorem c10_disconnect_witness :
    lookupClient 7 [(7, [some ['m']])] = some [some ['m']] ∧
    lookupClient 7 (disconnectClient 100 7 [(7, [some ['m']])]).1 = none ∧
    (disconnectClient 100 7 [(7, [some ['m']])]).2 =
      some (clientPush 100 [some ['m']] none) :=
  ⟨by decide,
   (c10_disconnect 100 7 [(7, [some ['m']])] [some ['m']] (by decide)).1,
   (c10_disconnect 100 7 [(7, [some ['m']])] [some ['m']] (by decide)).2.1⟩
